import Mathlib

/-
Verification of the grid-based AED coverage and candidate-ranking engine of the
`ddm` repository (src/04_future_analysis).  The Python sources are shallowly
embedded over ℝ: `math.radians`, `math.atan2`, the haversine formula, the
grid-lattice generation loops (as fuel-instrumented loops over ℝ), the
coverage classification of `grid_level_recommendation.py` (brute-force
haversine) and of `grid_level_recommendation_fast.py` (nearest Euclidean
distance in the fixed planar projection), candidate scoring, Python `int()`
truncation, and the greedy grouping pass of
`grid_level_recommendation_grouped.py`.
-/

noncomputable section

/-- Python `math.radians`: degrees to radians. -/
def radians (x : ℝ) : ℝ := x * (Real.pi / 180)

/-- Python `math.atan2 y x`, realised as the argument of the complex number
`x + y*I`.  For the haversine use both arguments are non-negative, where this
agrees with the two-argument arctangent. -/
def atan2 (y x : ℝ) : ℝ := Complex.arg (Complex.mk x y)

/-- `haversine_distance` from `grid_level_recommendation.py` lines 29-36 (the
identical function also appears in `grid_level_recommendation_grouped.py`
lines 12-19): great-circle distance in meters on a sphere of radius
6,371,000 m. -/
def haversine_distance (lat1 lon1 lat2 lon2 : ℝ) : ℝ :=
  2 * 6371000 *
    atan2
      (Real.sqrt (Real.sin (radians (lat2 - lat1) / 2) ^ 2 +
        Real.cos (radians lat1) * Real.cos (radians lat2) *
          Real.sin (radians (lon2 - lon1) / 2) ^ 2))
      (Real.sqrt (1 - (Real.sin (radians (lat2 - lat1) / 2) ^ 2 +
        Real.cos (radians lat1) * Real.cos (radians lat2) *
          Real.sin (radians (lon2 - lon1) / 2) ^ 2)))

/-- `meters_to_degrees` from `grid_level_recommendation.py` lines 38-42:
note the conversion constant is 111320 in this file. -/
def meters_to_degrees (meters latitude : ℝ) : ℝ × ℝ :=
  (meters / 111320, meters / (111320 * Real.cos (radians latitude)))

/-- `meters_to_degrees` from `grid_level_recommendation_fast.py` lines 31-34:
this variant uses the constant 111000. -/
def meters_to_degrees_fast (meters latitude : ℝ) : ℝ × ℝ :=
  (meters / 111000, meters / (111000 * Real.cos (radians latitude)))

/-- Inner `while lon <= bounds[2]` loop of `generate_grid_points`
(`grid_level_recommendation.py` lines 50-59), instrumented with fuel: `none`
means the fuel ran out, i.e. the loop is still running after that many
iterations.  `contains lon lat` stands for `polygon.contains(Point(lon, lat))`. -/
def generate_grid_cols (contains : ℝ → ℝ → Bool) (lat maxx lon_step : ℝ) :
    ℕ → ℝ → Option (List (ℝ × ℝ))
  | 0, _ => none
  | fuel + 1, lon =>
    if lon ≤ maxx then
      match generate_grid_cols contains lat maxx lon_step fuel (lon + lon_step) with
      | none => none
      | some pts => some ((if contains lon lat then [(lat, lon)] else []) ++ pts)
    else
      some []

/-- Outer `while lat <= bounds[3]` loop of `generate_grid_points`
(`grid_level_recommendation.py` lines 50-59), fuel-instrumented. -/
def generate_grid_rows (contains : ℝ → ℝ → Bool) (minx maxx lat_step lon_step maxy : ℝ)
    (fuelC : ℕ) : ℕ → ℝ → Option (List (ℝ × ℝ))
  | 0, _ => none
  | fuel + 1, lat =>
    if lat ≤ maxy then
      match generate_grid_cols contains lat maxx lon_step fuelC minx with
      | none => none
      | some row =>
        match generate_grid_rows contains minx maxx lat_step lon_step maxy fuelC fuel
            (lat + lat_step) with
        | none => none
        | some rest => some (row ++ rest)
    else
      some []

/-- `generate_grid_points` from `grid_level_recommendation.py` lines 44-60:
step sizes come from `meters_to_degrees` at the bounding-box vertical midpoint,
iteration starts at the bounding-box minimum corner. -/
def generate_grid_points (contains : ℝ → ℝ → Bool) (minx miny maxx maxy spacing : ℝ)
    (fuelR fuelC : ℕ) : Option (List (ℝ × ℝ)) :=
  generate_grid_rows contains minx maxx
    (meters_to_degrees spacing ((miny + maxy) / 2)).1
    (meters_to_degrees spacing ((miny + maxy) / 2)).2
    maxy fuelC fuelR miny

/-- Centroid fallback from `main` (`grid_level_recommendation.py` lines 143-146):
`if len(grid_points) == 0: grid_points = [(centroid.y, centroid.x)]`.
The centroid is passed as a `(lat, lon)` pair. -/
def rasterize_region (contains : ℝ → ℝ → Bool) (minx miny maxx maxy spacing : ℝ)
    (centroid : ℝ × ℝ) (fuelR fuelC : ℕ) : Option (List (ℝ × ℝ)) :=
  (generate_grid_points contains minx miny maxx maxy spacing fuelR fuelC).map
    (fun pts => if pts.length = 0 then [(centroid.1, centroid.2)] else pts)

/-- `LAT_TO_M` from `grid_level_recommendation_fast.py` line 28. -/
def LAT_TO_M : ℝ := 111000

/-- `LON_TO_M` from `grid_level_recommendation_fast.py` line 29. -/
def LON_TO_M : ℝ := 111000 * Real.cos (radians 35.55)

/-- Euclidean distance between two `(lat, lon)` points after the planar
projection of `grid_level_recommendation_fast.py` lines 103-106 and 153-156
(`x = lon * LON_TO_M`, `y = lat * LAT_TO_M`). -/
def planar_dist (lat1 lon1 lat2 lon2 : ℝ) : ℝ :=
  Real.sqrt ((lon1 * LON_TO_M - lon2 * LON_TO_M) ^ 2 +
    (lat1 * LAT_TO_M - lat2 * LAT_TO_M) ^ 2)

/-- The exact nearest-neighbour distance returned by `aed_tree.query` in
`grid_level_recommendation_fast.py` line 164, for a non-empty facility list
`a :: rest`. -/
def fast_nearest_dist (lat lon : ℝ) (a : ℝ × ℝ) (rest : List (ℝ × ℝ)) : ℝ :=
  rest.foldl (fun acc b => min acc (planar_dist lat lon b.1 b.2))
    (planar_dist lat lon a.1 a.2)

/-- `is_covered = distances <= COVER_DISTANCE` from
`grid_level_recommendation_fast.py` lines 164-165. -/
def fast_is_covered (lat lon : ℝ) (a : ℝ × ℝ) (rest : List (ℝ × ℝ)) (cover : ℝ) : Bool :=
  decide (fast_nearest_dist lat lon a rest ≤ cover)

/-- Coverage loop from `main` (`grid_level_recommendation.py` lines 158-164):
`is_covered` becomes true as soon as some facility is within `COVER_DISTANCE`. -/
def is_covered (lat lon : ℝ) (aeds : List (ℝ × ℝ)) (cover : ℝ) : Bool :=
  aeds.any (fun a => decide (haversine_distance lat lon a.1 a.2 ≤ cover))

/-- Distance to the nearest facility of the non-empty list `a :: rest`,
by haversine distance. -/
def nearest_dist (lat lon : ℝ) (a : ℝ × ℝ) (rest : List (ℝ × ℝ)) : ℝ :=
  rest.foldl (fun acc b => min acc (haversine_distance lat lon b.1 b.2))
    (haversine_distance lat lon a.1 a.2)

/-- An uncovered grid point: coordinates and its per-point risk weight
(`risk_weight` column of `df_uncovered`). -/
structure UPt where
  lat : ℝ
  lon : ℝ
  risk : ℝ

/-- Candidate scoring loop from `main` (`grid_level_recommendation.py` lines
211-216): sum of `uncovered_risks[i]` over all uncovered points within
`COVER_DISTANCE` of the candidate. -/
def new_covered_risk (clat clon : ℝ) (uncovered : List UPt) (cover : ℝ) : ℝ :=
  uncovered.foldl
    (fun acc u => if haversine_distance clat clon u.lat u.lon ≤ cover then acc + u.risk else acc)
    0

/-- Python `int()` on a float: truncation toward zero. -/
def python_int (x : ℝ) : ℤ := if 0 ≤ x then ⌊x⌋ else ⌈x⌉

/-- The `新規カバーリスク加重人口` value emitted at
`grid_level_recommendation.py` line 223: `int(new_covered_risk)`. -/
def reported_score (clat clon : ℝ) (uncovered : List UPt) (cover : ℝ) : ℤ :=
  python_int (new_covered_risk clat clon uncovered cover)

/-- `df_results.sort_values(..., ascending=False)` at
`grid_level_recommendation.py` line 227, modelled as sorting the result rows
`(lat, lon, truncated score)` by descending truncated score. -/
def sort_desc (l : List (ℝ × ℝ × ℤ)) : List (ℝ × ℝ × ℤ) :=
  l.insertionSort (fun a b => b.2.2 ≤ a.2.2)

/-- A row of `grid_level_recommendations.csv` as read by
`grid_level_recommendation_grouped.py`: coordinates and the (already
truncated, integral) score. -/
structure Cand where
  lat : ℝ
  lon : ℝ
  score : ℤ

/-- `GROUP_DISTANCE` from `grid_level_recommendation_grouped.py` line 10. -/
def GROUP_DISTANCE : ℝ := 500

/-- The `dist <= GROUP_DISTANCE` test of `grid_level_recommendation_grouped.py`
line 64. -/
def hav_near (r : ℝ) (p q : Cand) : Bool :=
  decide (haversine_distance p.lat p.lon q.lat q.lon ≤ r)

/-- Inner marking loop of `grid_level_recommendation_grouped.py` lines 55-65:
every remaining row within `r` of the selected row `p` is flagged used.
(Rows before the current one are already used, so flagging only the remaining
rows is equivalent to the source's `used_indices` set over all rows.) -/
def mark (r : ℝ) (p : Cand) (l : List (Cand × Bool)) : List (Cand × Bool) :=
  l.map (fun qu => (qu.1, qu.2 || hav_near r p qu.1))

/-- Selection loop of `grid_level_recommendation_grouped.py` lines 38-69.
`cnt` is `len(selected)` so far; after appending a row the loop breaks once
`len(selected) >= target` (source line 68 with `target = 20`). -/
def dedupGo (r : ℝ) (target : ℕ) : List (Cand × Bool) → ℕ → List Cand
  | [], _ => []
  | (p, u) :: rest, cnt =>
    if u then
      dedupGo r target rest cnt
    else if target ≤ cnt + 1 then
      [p]
    else
      p :: dedupGo r target (mark r p rest) (cnt + 1)
termination_by l _ => l.length
decreasing_by
  · simp
  · simp [mark]

/-- The grouping pass of `grid_level_recommendation_grouped.py` `main`:
all rows start unused, selection starts with zero rows selected. -/
def group_recommendations (r : ℝ) (target : ℕ) (cands : List Cand) : List Cand :=
  dedupGo r target (cands.map (fun c => (c, false))) 0

/-- A row of the population table `chocho_analysis_all_years.csv`:
ward, district name, cumulative risk-weighted population. -/
structure PopRec where
  ward : String
  chocho : String
  risk_cum : ℝ

/-- Population matching from `main` (`grid_level_recommendation.py` lines
149-153): filter the table on ward and district name; take the first match's
`リスク加重人口_累計`, defaulting to 0 when there is no match. -/
def lookup_risk (pop : List PopRec) (ward chocho : String) : ℝ :=
  match pop.filter (fun row => decide (row.ward = ward ∧ row.chocho = chocho)) with
  | [] => 0
  | row :: _ => row.risk_cum

/-- `risk_per_point = risk_pop / len(grid_points) if grid_points else 0`
(`grid_level_recommendation.py` line 156). -/
def risk_per_point (risk_pop : ℝ) (n : ℕ) : ℝ :=
  if n = 0 then 0 else risk_pop / n

/-- The grid rows appended for one region (`grid_level_recommendation.py`
lines 158-173, weight fields only): every rasterized point is kept, each
carrying the equally-divided region weight. -/
def region_grid_rows (pop : List PopRec) (ward chocho : String) (pts : List (ℝ × ℝ)) :
    List (ℝ × ℝ × ℝ) :=
  pts.map (fun p => (p.1, p.2, risk_per_point (lookup_risk pop ward chocho) pts.length))

/-- The two-argument arctangent used by the haversine formula is non-negative
whenever its first argument is. -/
theorem atan2_nonneg (y x : ℝ) (hy : 0 ≤ y) : 0 ≤ atan2 y x := by
  unfold atan2
  exact Complex.arg_nonneg_iff.mpr hy

/-- The haversine distance from a point to itself is zero. -/
theorem haversine_self (lat lon : ℝ) : haversine_distance lat lon lat lon = 0 := by
  unfold haversine_distance atan2 radians
  simp [Complex.mk_eq_add_mul_I, Complex.arg_one]

/-- The haversine distance is symmetric in its two points. -/
theorem haversine_symm (lat1 lon1 lat2 lon2 : ℝ) :
    haversine_distance lat1 lon1 lat2 lon2 = haversine_distance lat2 lon2 lat1 lon1 := by
  unfold haversine_distance
  have ha : Real.sin (radians (lat1 - lat2) / 2) ^ 2 +
        Real.cos (radians lat2) * Real.cos (radians lat1) *
          Real.sin (radians (lon1 - lon2) / 2) ^ 2 =
      Real.sin (radians (lat2 - lat1) / 2) ^ 2 +
        Real.cos (radians lat1) * Real.cos (radians lat2) *
          Real.sin (radians (lon2 - lon1) / 2) ^ 2 := by
    have h1 : radians (lat1 - lat2) = -radians (lat2 - lat1) := by unfold radians; ring
    have h2 : radians (lon1 - lon2) = -radians (lon2 - lon1) := by unfold radians; ring
    rw [h1, h2, neg_div, neg_div, Real.sin_neg, Real.sin_neg]
    ring
  rw [ha]

/-- The haversine distance is non-negative. -/
theorem haversine_nonneg (lat1 lon1 lat2 lon2 : ℝ) :
    0 ≤ haversine_distance lat1 lon1 lat2 lon2 := by
  unfold haversine_distance
  have h := atan2_nonneg
    (Real.sqrt (Real.sin (radians (lat2 - lat1) / 2) ^ 2 +
      Real.cos (radians lat1) * Real.cos (radians lat2) *
        Real.sin (radians (lon2 - lon1) / 2) ^ 2))
    (Real.sqrt (1 - (Real.sin (radians (lat2 - lat1) / 2) ^ 2 +
      Real.cos (radians lat1) * Real.cos (radians lat2) *
        Real.sin (radians (lon2 - lon1) / 2) ^ 2)))
    (Real.sqrt_nonneg _)
  nlinarith [h]

/-- Closed form of the haversine distance between two points on the prime
meridian whose latitudes differ by `d` degrees, `0 ≤ d ≤ 180`. -/
theorem haversine_zero_lat (d : ℝ) (h0 : 0 ≤ d) (h1 : d ≤ 180) :
    haversine_distance 0 0 d 0 = 6371000 * radians d := by
  have hpi := Real.pi_pos
  have hrad0 : 0 ≤ radians d / 2 := by
    unfold radians
    positivity
  have hrad1 : radians d / 2 ≤ Real.pi / 2 := by
    unfold radians
    nlinarith
  have hsin : 0 ≤ Real.sin (radians d / 2) :=
    Real.sin_nonneg_of_nonneg_of_le_pi hrad0 (by linarith)
  have hcos : 0 ≤ Real.cos (radians d / 2) :=
    Real.cos_nonneg_of_mem_Icc ⟨by linarith, hrad1⟩
  unfold haversine_distance
  rw [sub_zero, sub_self]
  have hz : radians 0 = 0 := by unfold radians; ring
  rw [hz]
  rw [show (0:ℝ) / 2 = 0 by norm_num, Real.sin_zero]
  rw [show Real.sin (radians d / 2) ^ 2 + Real.cos 0 * Real.cos (radians d) * 0 ^ 2 =
    Real.sin (radians d / 2) ^ 2 by ring]
  rw [Real.sqrt_sq hsin]
  rw [show 1 - Real.sin (radians d / 2) ^ 2 = Real.cos (radians d / 2) ^ 2 by
    rw [Real.cos_sq']]
  rw [Real.sqrt_sq hcos]
  unfold atan2
  rw [Complex.mk_eq_add_mul_I, Complex.ofReal_cos, Complex.ofReal_sin,
    Complex.arg_cos_add_sin_mul_I ⟨by linarith, by linarith⟩]
  ring

/-- A running minimum over a list is below a threshold iff the seed or one of
the list values is. -/
theorem foldl_min_le_iff (f : ℝ × ℝ → ℝ) (r : ℝ) :
    ∀ (l : List (ℝ × ℝ)) (d : ℝ),
      l.foldl (fun acc b => min acc (f b)) d ≤ r ↔ d ≤ r ∨ ∃ b ∈ l, f b ≤ r := by
  intro l
  induction l with
  | nil => intro d; simp
  | cons b t ih =>
    intro d
    simp only [List.foldl_cons]
    rw [ih, min_le_iff, List.exists_mem_cons_iff]
    tauto

/-- Claim C4 (amended): the reference implementation
(`grid_level_recommendation.py` lines 158-164) classifies a grid point as
covered iff the haversine distance to the nearest facility of the non-empty
facility list is at most the coverage radius.  (The fast implementation
instead thresholds the nearest Euclidean distance in the fixed planar
projection, which can disagree with the geodesic rule; see the
counterexample.) -/
theorem C4_nearest_characterization (lat lon cover : ℝ) (a : ℝ × ℝ)
    (rest : List (ℝ × ℝ)) :
    is_covered lat lon (a :: rest) cover = true ↔
      nearest_dist lat lon a rest ≤ cover := by
  unfold is_covered nearest_dist
  rw [foldl_min_le_iff]
  simp only [List.any_eq_true, decide_eq_true_eq, List.exists_mem_cons_iff]

/-- Claim C4 (counterexample): with a single facility 1/370 of a degree of
latitude away, the fast classification marks the point covered (projected
planar distance exactly 300 m) although the geodesic distance to that nearest
facility exceeds the 300 m coverage radius. -/
theorem C4_counterexample :
    fast_is_covered 0 0 ((1 / 370 : ℝ), (0 : ℝ)) [] 300 = true ∧
      ¬ haversine_distance 0 0 (1 / 370) 0 ≤ 300 := by
  constructor
  · have h1 : planar_dist 0 0 (1 / 370) 0 = 300 := by
      unfold planar_dist LAT_TO_M
      rw [show ((0 : ℝ) * LON_TO_M - 0 * LON_TO_M) ^ 2 +
          ((0 : ℝ) * 111000 - 1 / 370 * 111000) ^ 2 = 300 ^ 2 by norm_num]
      rw [Real.sqrt_sq (by norm_num : (0:ℝ) ≤ 300)]
    simp only [fast_is_covered, fast_nearest_dist, List.foldl_nil]
    exact decide_eq_true (le_of_eq h1)
  · rw [haversine_zero_lat (1 / 370) (by norm_num) (by norm_num), not_le]
    unfold radians
    nlinarith [Real.pi_gt_d2]

/-- Claim C5 (counterexample): the degree-spacing conversion of
`grid_level_recommendation.py` does not return `meters/111000` — at
`meters = 111320`, latitude 0, it returns 1, not `111320/111000`. -/
theorem C5_counterexample :
    (meters_to_degrees 111320 0).1 ≠ (111320 : ℝ) / 111000 := by
  unfold meters_to_degrees
  norm_num

/-- Claim C5 (amended): the fast variant's conversion returns
`(meters/111000, meters/(111000·cos latitude))`; the reference variant uses
the constant 111320 in place of 111000, so the two lat-steps are related by
the factor 111320/111000. -/
theorem C5_degree_conversion (m lat : ℝ) :
    meters_to_degrees m lat = (m / 111320, m / (111320 * Real.cos (radians lat))) ∧
      meters_to_degrees_fast m lat = (m / 111000, m / (111000 * Real.cos (radians lat))) ∧
      111000 * (meters_to_degrees_fast m lat).1 = 111320 * (meters_to_degrees m lat).1 := by
  refine ⟨rfl, rfl, ?_⟩
  unfold meters_to_degrees meters_to_degrees_fast
  field_simp

/-- With a non-positive latitude step and a non-degenerate bounding box, the
outer grid loop never terminates: it returns `none` for every fuel bound. -/
theorem generate_grid_rows_none (contains : ℝ → ℝ → Bool)
    (minx maxx lat_step lon_step maxy : ℝ) (hstep : lat_step ≤ 0) (fuelC : ℕ) :
    ∀ (fuelR : ℕ) (lat : ℝ), lat ≤ maxy →
      generate_grid_rows contains minx maxx lat_step lon_step maxy fuelC fuelR lat = none := by
  intro fuelR
  induction fuelR with
  | zero => intro lat _; rfl
  | succ n ih =>
    intro lat hlat
    unfold generate_grid_rows
    rw [if_pos hlat]
    cases h : generate_grid_cols contains lat maxx lon_step fuelC minx with
    | none => rfl
    | some row => rw [ih (lat + lat_step) (by linarith)]

/-- Claim C6 (amended): the engine performs no configuration validation and
has no `InvalidConfiguration` condition; with zero or negative grid spacing
the generation loop simply never terminates (it is still running after every
finite number of iterations), so no grid — zero-length or otherwise — and no
error is ever produced. -/
theorem C6_no_validation_divergence (contains : ℝ → ℝ → Bool)
    (minx miny maxx maxy spacing : ℝ) (hs : spacing ≤ 0) (hy : miny ≤ maxy)
    (fuelR fuelC : ℕ) :
    generate_grid_points contains minx miny maxx maxy spacing fuelR fuelC = none := by
  unfold generate_grid_points
  apply generate_grid_rows_none
  · exact div_nonpos_of_nonpos_of_nonneg hs (by norm_num)
  · exact hy

/-- Claim C6 (counterexample): with zero spacing on the unit bounding box the
engine does not fail fast with any error — after 1000 iterations of each loop
it is still running (and by `C6_no_validation_divergence` it never stops). -/
theorem C6_counterexample :
    generate_grid_points (fun _ _ => true) 0 0 1 1 0 1000 1000 = none := by
  unfold generate_grid_points
  apply generate_grid_rows_none
  · norm_num [meters_to_degrees]
  · norm_num

/-- Applying C6 at a concrete degenerate configuration. -/
theorem C6_witness :
    generate_grid_points (fun _ _ => false) 0 0 2 2 (-1) 7 7 = none :=
  C6_no_validation_divergence (fun _ _ => false) 0 0 2 2 (-1) (by norm_num)
    (by norm_num) 7 7

/-- With a positive longitude step, the inner grid loop terminates once the
running longitude passes the box: fuel `n + 1` suffices when `n` steps carry
`lon` beyond `maxx`. -/
theorem generate_grid_cols_some (contains : ℝ → ℝ → Bool) (lat maxx lon_step : ℝ)
    (hstep : 0 < lon_step) :
    ∀ (n : ℕ) (lon : ℝ), maxx < lon + n * lon_step →
      ∃ pts, generate_grid_cols contains lat maxx lon_step (n + 1) lon = some pts := by
  intro n
  induction n with
  | zero =>
    intro lon h
    simp only [Nat.cast_zero, zero_mul, add_zero] at h
    unfold generate_grid_cols
    rw [if_neg (not_le.mpr h)]
    exact ⟨[], rfl⟩
  | succ n ih =>
    intro lon h
    unfold generate_grid_cols
    by_cases hlon : lon ≤ maxx
    · rw [if_pos hlon]
      obtain ⟨pts, hpts⟩ := ih (lon + lon_step) (by push_cast at h ⊢; nlinarith)
      rw [hpts]
      exact ⟨_, rfl⟩
    · rw [if_neg hlon]
      exact ⟨[], rfl⟩

/-- With a positive latitude step and terminating inner loops, the outer grid
loop terminates. -/
theorem generate_grid_rows_some (contains : ℝ → ℝ → Bool)
    (minx maxx lat_step lon_step maxy : ℝ) (hstep : 0 < lat_step) (fuelC : ℕ)
    (hcols : ∀ la : ℝ, ∃ pts,
      generate_grid_cols contains la maxx lon_step fuelC minx = some pts) :
    ∀ (n : ℕ) (lat : ℝ), maxy < lat + n * lat_step →
      ∃ pts, generate_grid_rows contains minx maxx lat_step lon_step maxy fuelC
        (n + 1) lat = some pts := by
  intro n
  induction n with
  | zero =>
    intro lat h
    simp only [Nat.cast_zero, zero_mul, add_zero] at h
    unfold generate_grid_rows
    rw [if_neg (not_le.mpr h)]
    exact ⟨[], rfl⟩
  | succ n ih =>
    intro lat h
    unfold generate_grid_rows
    by_cases hlat : lat ≤ maxy
    · rw [if_pos hlat]
      obtain ⟨row, hrow⟩ := hcols lat
      rw [hrow]
      obtain ⟨rest, hrest⟩ := ih (lat + lat_step) (by push_cast at h ⊢; nlinarith)
      rw [hrest]
      exact ⟨_, rfl⟩
    · rw [if_neg hlat]
      exact ⟨[], rfl⟩

/-- Claim C7: for any region polygon (any point-in-polygon predicate and
bounding box) and any positive spacing, away from the degenerate-projection
case the rasterization step terminates and produces at least one grid point;
if the interior lattice came out empty, the result is exactly one point at
the polygon's centroid, so no region's weight is dropped. -/
theorem C7_fallback_guarantee (contains : ℝ → ℝ → Bool)
    (minx miny maxx maxy spacing : ℝ) (centroid : ℝ × ℝ) (hs : 0 < spacing)
    (hc : 0 < Real.cos (radians ((miny + maxy) / 2))) :
    ∃ (fuelR fuelC : ℕ) (res : List (ℝ × ℝ)),
      rasterize_region contains minx miny maxx maxy spacing centroid fuelR fuelC =
        some res ∧
      1 ≤ res.length ∧
      (generate_grid_points contains minx miny maxx maxy spacing fuelR fuelC =
          some [] → res = [(centroid.1, centroid.2)]) := by
  have hlat : 0 < (meters_to_degrees spacing ((miny + maxy) / 2)).1 :=
    div_pos hs (by norm_num)
  have hlon : 0 < (meters_to_degrees spacing ((miny + maxy) / 2)).2 :=
    div_pos hs (mul_pos (by norm_num) hc)
  obtain ⟨nc, hnc⟩ := exists_nat_gt
    ((maxx - minx) / (meters_to_degrees spacing ((miny + maxy) / 2)).2)
  have hcols : ∀ la : ℝ, ∃ pts, generate_grid_cols contains la maxx
      (meters_to_degrees spacing ((miny + maxy) / 2)).2 (nc + 1) minx = some pts := by
    intro la
    apply generate_grid_cols_some contains la maxx _ hlon nc minx
    have := (div_lt_iff₀ hlon).mp hnc
    linarith
  obtain ⟨nr, hnr⟩ := exists_nat_gt
    ((maxy - miny) / (meters_to_degrees spacing ((miny + maxy) / 2)).1)
  obtain ⟨pts, hpts⟩ := generate_grid_rows_some contains minx maxx
    (meters_to_degrees spacing ((miny + maxy) / 2)).1
    (meters_to_degrees spacing ((miny + maxy) / 2)).2 maxy hlat (nc + 1) hcols nr miny
    (by
      have := (div_lt_iff₀ hlat).mp hnr
      linarith)
  have hgen : generate_grid_points contains minx miny maxx maxy spacing (nr + 1)
      (nc + 1) = some pts := hpts
  refine ⟨nr + 1, nc + 1,
    if pts.length = 0 then [(centroid.1, centroid.2)] else pts, ?_, ?_, ?_⟩
  · unfold rasterize_region
    rw [hgen]
    rfl
  · by_cases hp : pts.length = 0
    · rw [if_pos hp]
      simp
    · rw [if_neg hp]
      omega
  · intro hnil
    rw [hgen] at hnil
    have hempty : pts = [] := by injection hnil
    rw [if_pos (by rw [hempty]; rfl)]

/-- Applying C7 at a concrete degenerate polygon (point bounding box, no
interior point), spacing 50 m. -/
theorem C7_witness :
    ∃ (fuelR fuelC : ℕ) (res : List (ℝ × ℝ)),
      rasterize_region (fun _ _ => false) 0 0 0 0 50 (10, 20) fuelR fuelC =
        some res ∧
      1 ≤ res.length ∧
      (generate_grid_points (fun _ _ => false) 0 0 0 0 50 fuelR fuelC = some [] →
        res = [((10 : ℝ), (20 : ℝ))]) :=
  C7_fallback_guarantee (fun _ _ => false) 0 0 0 0 50 (10, 20) (by norm_num)
    (by norm_num [radians])

/-- Folding the scoring accumulator from `acc` equals `acc` plus folding it
from `0`. -/
theorem new_covered_risk_shift (clat clon cover : ℝ) :
    ∀ (us : List UPt) (acc : ℝ),
      us.foldl (fun a u =>
        if haversine_distance clat clon u.lat u.lon ≤ cover then a + u.risk else a) acc =
      acc + us.foldl (fun a u =>
        if haversine_distance clat clon u.lat u.lon ≤ cover then a + u.risk else a) 0 := by
  intro us
  induction us with
  | nil => intro acc; simp
  | cons u t ih =>
    intro acc
    simp only [List.foldl_cons]
    rw [ih, ih (if haversine_distance clat clon u.lat u.lon ≤ cover then 0 + u.risk else 0)]
    by_cases h : haversine_distance clat clon u.lat u.lon ≤ cover
    · rw [if_pos h, if_pos h]
      ring
    · rw [if_neg h, if_neg h]
      ring

/-- The scoring loop computes the sum of the weights of the uncovered points
within the coverage radius of the candidate. -/
theorem new_covered_risk_eq (clat clon cover : ℝ) (us : List UPt) :
    new_covered_risk clat clon us cover =
      ((us.filter fun u =>
        decide (haversine_distance clat clon u.lat u.lon ≤ cover)).map UPt.risk).sum := by
  induction us with
  | nil => rfl
  | cons u t ih =>
    unfold new_covered_risk at ih ⊢
    simp only [List.foldl_cons]
    rw [new_covered_risk_shift, ih, List.filter_cons]
    by_cases h : haversine_distance clat clon u.lat u.lon ≤ cover
    · rw [if_pos h, if_pos (decide_eq_true h)]
      simp only [List.map_cons, List.sum_cons]
      ring
    · rw [if_neg h, if_neg (by simpa using h)]
      ring

/-- With non-negative weights, every candidate score is non-negative. -/
theorem new_covered_risk_nonneg (clat clon cover : ℝ) (us : List UPt)
    (hw : ∀ u ∈ us, 0 ≤ u.risk) : 0 ≤ new_covered_risk clat clon us cover := by
  rw [new_covered_risk_eq]
  apply List.sum_nonneg
  intro x hx
  simp only [List.mem_map] at hx
  obtain ⟨u, hu, rfl⟩ := hx
  exact hw u (List.mem_of_mem_filter hu)

/-- Claim C2: the candidate score of an uncovered point `p` is the sum of the
weights of all uncovered points (including `p` itself) within the coverage
radius of it; with non-negative weights the score is non-negative and at
least `p`'s own weight. -/
theorem C2_candidate_score (cover : ℝ) (us : List UPt) (p : UPt)
    (hp : p ∈ us) (hw : ∀ u ∈ us, 0 ≤ u.risk) (hr : 0 ≤ cover) :
    new_covered_risk p.lat p.lon us cover =
      ((us.filter fun u =>
        decide (haversine_distance p.lat p.lon u.lat u.lon ≤ cover)).map UPt.risk).sum ∧
    0 ≤ new_covered_risk p.lat p.lon us cover ∧
    p.risk ≤ new_covered_risk p.lat p.lon us cover := by
  refine ⟨new_covered_risk_eq _ _ _ _, new_covered_risk_nonneg _ _ _ _ hw, ?_⟩
  rw [new_covered_risk_eq]
  apply List.single_le_sum
  · intro x hx
    simp only [List.mem_map] at hx
    obtain ⟨u, hu, rfl⟩ := hx
    exact hw u (List.mem_of_mem_filter hu)
  · exact List.mem_map_of_mem UPt.risk (List.mem_filter.mpr
      ⟨hp, decide_eq_true (by rw [haversine_self]; exact hr)⟩)

/-- Applying C2 at a concrete one-point uncovered set. -/
theorem C2_witness :
    0 ≤ new_covered_risk 0 0 [UPt.mk 0 0 5] 300 ∧
      (UPt.mk 0 0 5).risk ≤ new_covered_risk 0 0 [UPt.mk 0 0 5] 300 := by
  have h := C2_candidate_score 300 [UPt.mk 0 0 5] (UPt.mk 0 0 5) (by simp)
    (by
      intro u hu
      rw [List.mem_singleton] at hu
      subst hu
      norm_num)
    (by norm_num)
  exact ⟨h.2.1, h.2.2⟩

/-- Claim C3: each grid point of a region with `n ≥ 1` rasterized points and
aggregate weight `w` gets weight `w/n`, and the weights of the region's points
sum back to exactly `w` (hence certainly within the stated floating-point
tolerance). -/
theorem C3_weight_conservation (w : ℝ) (n : ℕ) (hn : 1 ≤ n) :
    risk_per_point w n = w / n ∧
      (List.replicate n (risk_per_point w n)).sum = w := by
  have hne : n ≠ 0 := by omega
  have h1 : risk_per_point w n = w / n := by
    unfold risk_per_point
    rw [if_neg hne]
  refine ⟨h1, ?_⟩
  rw [h1, List.sum_replicate, nsmul_eq_mul, mul_comm]
  exact div_mul_cancel₀ w (Nat.cast_ne_zero.mpr hne)

/-- Applying C3 at a region of weight 1000 rasterized to 4 points. -/
theorem C3_witness :
    risk_per_point 1000 4 = 1000 / ((4 : ℕ) : ℝ) ∧
      (List.replicate 4 (risk_per_point 1000 4)).sum = 1000 :=
  C3_weight_conservation 1000 4 (by norm_num)

/-- Claim C8: for a fixed radius, adding a facility preserves coveredness:
in the reference classification a covered point stays covered when the
facility list is extended (at either end), and in the fast classification the
nearest projected distance can only decrease. -/
theorem C8_coverage_monotonic (lat lon cover : ℝ) (aeds : List (ℝ × ℝ)) (f : ℝ × ℝ) :
    (is_covered lat lon aeds cover = true →
      is_covered lat lon (aeds ++ [f]) cover = true ∧
      is_covered lat lon (f :: aeds) cover = true) ∧
    ∀ (a : ℝ × ℝ) (rest : List (ℝ × ℝ)),
      fast_is_covered lat lon a rest cover = true →
      fast_is_covered lat lon a (rest ++ [f]) cover = true := by
  constructor
  · intro h
    unfold is_covered at h ⊢
    constructor
    · rw [List.any_append, h, Bool.true_or]
    · rw [List.any_cons, h, Bool.or_true]
  · intro a rest h
    unfold fast_is_covered at h ⊢
    have hle : fast_nearest_dist lat lon a (rest ++ [f]) ≤ fast_nearest_dist lat lon a rest := by
      unfold fast_nearest_dist
      rw [List.foldl_append]
      simp only [List.foldl_cons, List.foldl_nil]
      exact min_le_left _ _
    exact decide_eq_true (le_trans hle (of_decide_eq_true h))

/-- Applying C8 with a facility at the point itself and a new facility far
away. -/
theorem C8_witness :
    is_covered 0 0 ([((0 : ℝ), (0 : ℝ))] ++ [((1 : ℝ), (1 : ℝ))]) 300 = true ∧
      fast_is_covered 0 0 ((0 : ℝ), (0 : ℝ)) ([] ++ [((1 : ℝ), (1 : ℝ))]) 300 = true := by
  have hslow : is_covered 0 0 [((0 : ℝ), (0 : ℝ))] 300 = true := by
    unfold is_covered
    simp only [List.any_cons, List.any_nil, Bool.or_false]
    exact decide_eq_true (by rw [haversine_self]; norm_num)
  have hfast : fast_is_covered 0 0 ((0 : ℝ), (0 : ℝ)) [] 300 = true := by
    unfold fast_is_covered fast_nearest_dist
    simp only [List.foldl_nil]
    apply decide_eq_true
    unfold planar_dist
    norm_num [Real.sqrt_zero]
  exact ⟨((C8_coverage_monotonic 0 0 300 [(0, 0)] (1, 1)).1 hslow).1,
    (C8_coverage_monotonic 0 0 300 [(0, 0)] (1, 1)).2 (0, 0) [] hfast⟩

/-- Claim C9: the emitted score is the floating-point weight sum truncated by
Python `int()` — with non-negative weights this is the floor, an integer at
most the true sum and greater than the true sum minus one — and the ranking
sort is performed on those truncated values. -/
theorem C9_truncated_ranking (clat clon cover : ℝ) (us : List UPt)
    (hw : ∀ u ∈ us, 0 ≤ u.risk) :
    reported_score clat clon us cover = ⌊new_covered_risk clat clon us cover⌋ ∧
    (reported_score clat clon us cover : ℝ) ≤ new_covered_risk clat clon us cover ∧
    new_covered_risk clat clon us cover - 1 < (reported_score clat clon us cover : ℝ) ∧
    ∀ rows : List (ℝ × ℝ × ℤ), (sort_desc rows).Sorted (fun a b => b.2.2 ≤ a.2.2) := by
  have h0 : 0 ≤ new_covered_risk clat clon us cover :=
    new_covered_risk_nonneg _ _ _ _ hw
  have h1 : reported_score clat clon us cover = ⌊new_covered_risk clat clon us cover⌋ := by
    unfold reported_score python_int
    rw [if_pos h0]
  refine ⟨h1, ?_, ?_, ?_⟩
  · rw [h1]
    exact Int.floor_le _
  · rw [h1]
    exact Int.sub_one_lt_floor _
  · intro rows
    unfold sort_desc
    haveI : IsTotal (ℝ × ℝ × ℤ) (fun a b => b.2.2 ≤ a.2.2) :=
      ⟨fun a b => le_total b.2.2 a.2.2⟩
    haveI : IsTrans (ℝ × ℝ × ℤ) (fun a b => b.2.2 ≤ a.2.2) :=
      ⟨fun a b c hab hbc => le_trans hbc hab⟩
    exact List.sorted_insertionSort _ rows

/-- Applying C9 at a concrete one-point uncovered set. -/
theorem C9_witness :
    reported_score 0 0 [UPt.mk 0 0 5] 300 = ⌊new_covered_risk 0 0 [UPt.mk 0 0 5] 300⌋ :=
  (C9_truncated_ranking 0 0 300 [UPt.mk 0 0 5]
    (by
      intro u hu
      rw [List.mem_singleton] at hu
      subst hu
      norm_num)).1

/-- Claim C10: a region whose (ward, name) pair matches no population record
raises no error: its aggregate weight defaults to 0, every one of its grid
points gets weight exactly 0, and all its points are still emitted (same
coordinates, same count) for classification and scoring. -/
theorem C10_missing_population_defaults_zero (pop : List PopRec) (ward chocho : String)
    (pts : List (ℝ × ℝ))
    (h : ∀ r ∈ pop, ¬(r.ward = ward ∧ r.chocho = chocho)) :
    lookup_risk pop ward chocho = 0 ∧
    region_grid_rows pop ward chocho pts = pts.map (fun p => (p.1, p.2, (0 : ℝ))) ∧
    (region_grid_rows pop ward chocho pts).length = pts.length := by
  have hf : pop.filter (fun row => decide (row.ward = ward ∧ row.chocho = chocho)) = [] := by
    rw [List.filter_eq_nil_iff]
    intro a ha
    simpa using h a ha
  have h0 : lookup_risk pop ward chocho = 0 := by
    unfold lookup_risk
    rw [hf]
  have hz : risk_per_point 0 pts.length = 0 := by
    unfold risk_per_point
    simp
  refine ⟨h0, ?_, by unfold region_grid_rows; rw [List.length_map]⟩
  unfold region_grid_rows
  simp only [h0, hz]

/-- Applying C10 at a concrete unmatched region. -/
theorem C10_witness :
    lookup_risk [PopRec.mk "wardA" "townB" 3] "wardC" "townB" = 0 :=
  (C10_missing_population_defaults_zero [PopRec.mk "wardA" "townB" 3] "wardC" "townB"
    [((0 : ℝ), (0 : ℝ))]
    (by
      intro r hr
      rw [List.mem_singleton] at hr
      subst hr
      simp)).1

/-- An entry still unused after the marking pass was unused before it and is
not within the grouping radius of the selected row. -/
theorem mark_mem_false (r : ℝ) (p c : Cand) (l : List (Cand × Bool))
    (h : (c, false) ∈ mark r p l) : (c, false) ∈ l ∧ hav_near r p c = false := by
  unfold mark at h
  rw [List.mem_map] at h
  obtain ⟨⟨q, u⟩, hq, heq⟩ := h
  obtain ⟨h1, h2⟩ := Prod.mk.injEq .. ▸ heq
  subst h1
  obtain ⟨hu, hnear⟩ := Bool.or_eq_false_iff.mp h2
  subst hu
  exact ⟨hq, hnear⟩

/-- Every row emitted by the selection loop was an unused entry of the input
state, so any property of the unused entries carries to the output. -/
theorem dedupGo_mem (r : ℝ) (target : ℕ) (P : Cand → Prop) :
    ∀ (n : ℕ) (l : List (Cand × Bool)) (cnt : ℕ), l.length ≤ n →
      (∀ c : Cand, (c, false) ∈ l → P c) →
      ∀ q ∈ dedupGo r target l cnt, P q := by
  intro n
  induction n with
  | zero =>
    intro l cnt hlen _ q hq
    have hnil : l = [] := List.eq_nil_of_length_eq_zero (Nat.le_zero.mp hlen)
    subst hnil
    simp [dedupGo] at hq
  | succ n ih =>
    intro l cnt hlen hP q hq
    cases l with
    | nil => simp [dedupGo] at hq
    | cons pu rest =>
      obtain ⟨p, u⟩ := pu
      have hlen' : rest.length ≤ n := by
        simp only [List.length_cons] at hlen
        omega
      cases u with
      | true =>
        simp only [dedupGo, if_pos] at hq
        exact ih rest cnt hlen' (fun c hc => hP c (List.mem_cons_of_mem _ hc)) q hq
      | false =>
        simp only [dedupGo, Bool.false_eq_true, if_false] at hq
        by_cases ht : target ≤ cnt + 1
        · rw [if_pos ht, List.mem_singleton] at hq
          subst hq
          exact hP q (List.mem_cons_self _ _)
        · rw [if_neg ht, List.mem_cons] at hq
          rcases hq with hq | hq
          · subst hq
            exact hP q (List.mem_cons_self _ _)
          · exact ih (mark r p rest) (cnt + 1)
              (by simpa [mark] using hlen')
              (fun c hc => hP c (List.mem_cons_of_mem _ (mark_mem_false r p c rest hc).1))
              q hq

/-- The rows selected by the greedy loop are pairwise not within the grouping
radius of each other (in selection order). -/
theorem dedupGo_pairwise (r : ℝ) (target : ℕ) :
    ∀ (n : ℕ) (l : List (Cand × Bool)) (cnt : ℕ), l.length ≤ n →
      (dedupGo r target l cnt).Pairwise (fun a b => hav_near r a b = false) := by
  intro n
  induction n with
  | zero =>
    intro l cnt hlen
    have hnil : l = [] := List.eq_nil_of_length_eq_zero (Nat.le_zero.mp hlen)
    subst hnil
    simp [dedupGo]
  | succ n ih =>
    intro l cnt hlen
    cases l with
    | nil => simp [dedupGo]
    | cons pu rest =>
      obtain ⟨p, u⟩ := pu
      have hlen' : rest.length ≤ n := by
        simp only [List.length_cons] at hlen
        omega
      cases u with
      | true =>
        simp only [dedupGo, if_pos]
        exact ih rest cnt hlen'
      | false =>
        simp only [dedupGo, Bool.false_eq_true, if_false]
        by_cases ht : target ≤ cnt + 1
        · rw [if_pos ht]
          simp
        · rw [if_neg ht, List.pairwise_cons]
          refine ⟨?_, ih (mark r p rest) (cnt + 1) (by simpa [mark] using hlen')⟩
          intro b hb
          exact dedupGo_mem r target (fun c => hav_near r p c = false) n
            (mark r p rest) (cnt + 1) (by simpa [mark] using hlen')
            (fun c hc => (mark_mem_false r p c rest hc).2) b hb

/-- The proximity test of the grouping pass is symmetric. -/
theorem hav_near_symm (r : ℝ) (a b : Cand) : hav_near r a b = hav_near r b a := by
  unfold hav_near
  rw [haversine_symm]

/-- Claim C1: no two distinct recommendations accepted by the greedy grouping
pass are within the 500 m grouping radius of each other — every pair is
separated by strictly more than `GROUP_DISTANCE` in haversine distance. -/
theorem C1_dedup_non_overlap (target : ℕ) (cands : List Cand) (p q : Cand)
    (hp : p ∈ group_recommendations GROUP_DISTANCE target cands)
    (hq : q ∈ group_recommendations GROUP_DISTANCE target cands)
    (hne : p ≠ q) :
    GROUP_DISTANCE < haversine_distance p.lat p.lon q.lat q.lon := by
  have hpw : (group_recommendations GROUP_DISTANCE target cands).Pairwise
      (fun a b => hav_near GROUP_DISTANCE a b = false) :=
    dedupGo_pairwise GROUP_DISTANCE target
      ((cands.map (fun c => (c, false))).length) (cands.map (fun c => (c, false))) 0 le_rfl
  have hsym : Symmetric (fun a b : Cand => hav_near GROUP_DISTANCE a b = false) := by
    intro a b h
    rw [hav_near_symm]
    exact h
  have hfalse := hpw.forall hsym hp hq hne
  exact not_le.mp (of_decide_eq_false hfalse)

/-- Applying C1 on two concrete candidates one degree of latitude apart. -/
theorem C1_witness : GROUP_DISTANCE < haversine_distance 0 0 1 0 := by
  have hfar : ¬ haversine_distance 0 0 1 0 ≤ GROUP_DISTANCE := by
    rw [haversine_zero_lat 1 (by norm_num) (by norm_num), not_le]
    unfold GROUP_DISTANCE radians
    nlinarith [Real.pi_gt_three]
  have hnf : hav_near GROUP_DISTANCE (Cand.mk 0 0 100) (Cand.mk 1 0 90) = false :=
    decide_eq_false hfar
  have heval : group_recommendations GROUP_DISTANCE 20 [Cand.mk 0 0 100, Cand.mk 1 0 90] =
      [Cand.mk 0 0 100, Cand.mk 1 0 90] := by
    unfold group_recommendations
    simp [dedupGo, mark, hnf]
  exact C1_dedup_non_overlap 20 [Cand.mk 0 0 100, Cand.mk 1 0 90]
    (Cand.mk 0 0 100) (Cand.mk 1 0 90)
    (by rw [heval]; simp) (by rw [heval]; simp)
    (by
      intro hcontra
      have := congrArg Cand.lat hcontra
      norm_num at this)

end
